import Mathlib

/-!
Verification development for the `database_connection` package: a shallow
embedding of its data model and operations (in-memory store, CSV-file store,
and the time-ordered `DataQueue`), together with theorems settling the
behavioural claims about filtering, deletion, sorting, iteration, schema
validation and file initialisation.

Python dictionaries are modelled as association lists with string keys,
Python `datetime` values as a pair of an awareness flag and a UTC-based
instant in seconds, and raised exceptions as `Except` errors.  The external
`dateutil` parsing capability and `datetime.isoformat` are modelled for
canonical ISO-8601 inputs (whole seconds, numeric offsets), which is the
format the package itself reads and writes.
-/

deriving instance DecidableEq for Except

namespace DBConn

/-! ## Python string ordering

Python compares strings lexicographically by Unicode code point; `list.sort`
uses this ordering on the key values.  We model it on the code-point lists. -/

def lexLt : List Nat → List Nat → Bool
  | _, [] => false
  | [], _ :: _ => true
  | a :: as, b :: bs => decide (a < b) || (decide (a = b) && lexLt as bs)

/-- Strict lexicographic comparison of Python strings by code point. -/
def strLt (a b : String) : Bool := lexLt (a.data.map Char.toNat) (b.data.map Char.toNat)

/-- Reflexive string comparison used to model Python's stable sort by key:
`a` may stay before `b` exactly when `b < a` fails. -/
def strLe (a b : String) : Bool := !(strLt b a)

theorem lexLt_irrefl : ∀ l : List Nat, lexLt l l = false := by
  intro l
  induction l with
  | nil => rfl
  | cons a as ih => simp [lexLt, ih]

theorem lexLt_trans : ∀ {x y z : List Nat}, lexLt x y = true → lexLt y z = true → lexLt x z = true := by
  intro x
  induction x with
  | nil =>
    intro y z hxy hyz
    cases y with
    | nil => simp [lexLt] at hxy
    | cons b bs =>
      cases z with
      | nil => simp [lexLt] at hyz
      | cons c cs => simp [lexLt]
  | cons a as ih =>
    intro y z hxy hyz
    cases y with
    | nil => simp [lexLt] at hxy
    | cons b bs =>
      cases z with
      | nil => simp [lexLt] at hyz
      | cons c cs =>
        simp only [lexLt, Bool.or_eq_true, Bool.and_eq_true, decide_eq_true_eq] at hxy hyz ⊢
        rcases hxy with h1 | ⟨h1, h1'⟩ <;> rcases hyz with h2 | ⟨h2, h2'⟩
        · exact Or.inl (Nat.lt_trans h1 h2)
        · exact Or.inl (h2 ▸ h1)
        · exact Or.inl (h1 ▸ h2)
        · exact Or.inr ⟨h1.trans h2, ih h1' h2'⟩

theorem lexLt_trichotomy : ∀ x y : List Nat, lexLt x y = true ∨ x = y ∨ lexLt y x = true := by
  intro x
  induction x with
  | nil =>
    intro y
    cases y with
    | nil => exact Or.inr (Or.inl rfl)
    | cons b bs => exact Or.inl (by simp [lexLt])
  | cons a as ih =>
    intro y
    cases y with
    | nil => exact Or.inr (Or.inr (by simp [lexLt]))
    | cons b bs =>
      rcases Nat.lt_trichotomy a b with h | h | h
      · exact Or.inl (by simp [lexLt, h])
      · rcases ih bs with h' | h' | h'
        · exact Or.inl (by simp [lexLt, h, h'])
        · exact Or.inr (Or.inl (by rw [h, h']))
        · exact Or.inr (Or.inr (by simp [lexLt, h.symm, h']))
      · exact Or.inr (Or.inr (by simp [lexLt, h]))

theorem strLe_trans {a b c : String} (h1 : strLe a b = true) (h2 : strLe b c = true) :
    strLe a c = true := by
  unfold strLe strLt at *
  simp only [Bool.not_eq_true'] at h1 h2
  simp only [Bool.not_eq_true']
  by_contra hca
  simp only [Bool.not_eq_false] at hca
  rcases lexLt_trichotomy (a.data.map Char.toNat) (b.data.map Char.toNat) with h | h | h
  · have := lexLt_trans hca h
    rw [this] at h2; exact absurd h2 (by simp)
  · rw [← h] at h2
    rw [hca] at h2; exact absurd h2 (by simp)
  · rw [h] at h1; exact absurd h1 (by simp)

theorem strLe_total (a b : String) : strLe a b = true ∨ strLe b a = true := by
  unfold strLe strLt
  by_contra h
  push_neg at h
  obtain ⟨h1, h2⟩ := h
  simp only [Bool.not_eq_true, Bool.not_eq_false'] at h1 h2
  have := lexLt_trans h1 h2
  rw [lexLt_irrefl] at this
  exact absurd this (by simp)

theorem strLe_refl (a : String) : strLe a a = true := by
  unfold strLe strLt
  simp [lexLt_irrefl]

theorem strLt_asymm {a b : String} (h : strLt a b = true) : strLt b a = false := by
  unfold strLt at *
  by_contra hb
  simp only [Bool.not_eq_false] at hb
  have := lexLt_trans h hb
  rw [lexLt_irrefl] at this
  exact absurd this (by simp)

/-! ## Datetimes and errors -/

/-- Model of a Python `datetime`: `aware` records whether it carries timezone
information, `val` is the denoted point in time in seconds (for aware values,
the UTC instant; for naive values, the wall-clock reading). -/
structure PyDatetime where
  aware : Bool
  val : Int
  deriving DecidableEq, Repr

/-- Exceptions raised by the Python code, by kind. -/
inductive PyErr
  | valueError
  | keyError
  | typeError
  | parserError
  | headerMismatch
  | attributeError
  deriving DecidableEq, Repr

/-- Days since 1970-01-01 of the civil date `(y, m, d)` (proleptic Gregorian
calendar, standard days-from-civil algorithm). -/
def daysFromCivil (y m d : Int) : Int :=
  let y' := if m ≤ 2 then y - 1 else y
  let era := (if 0 ≤ y' then y' else y' - 399) / 400
  let yoe := y' - era * 400
  let mp := if 2 < m then m - 3 else m + 9
  let doy := (153 * mp + 2) / 5 + d - 1
  let doe := yoe * 365 + yoe / 4 - yoe / 100 + doy
  era * 146097 + doe - 719468

/-- Seconds since the epoch of a civil date and time (UTC reading). -/
def civilSecs (y mo d h mi s : Nat) : Int :=
  daysFromCivil (y : Int) (mo : Int) (d : Int) * 86400 + ((h * 3600 + mi * 60 + s : Nat) : Int)

/-- Inverse of `daysFromCivil` (standard civil-from-days algorithm). -/
def civilFromDays (z0 : Int) : Int × Int × Int :=
  let z := z0 + 719468
  let era := (if 0 ≤ z then z else z - 146096) / 146097
  let doe := z - era * 146097
  let yoe := (doe - doe / 1460 + doe / 36524 - doe / 146096) / 365
  let y := yoe + era * 400
  let doy := doe - (365 * yoe + yoe / 4 - yoe / 100)
  let mp := (5 * doy + 2) / 153
  let d := doy - (153 * mp + 2) / 5 + 1
  let m := if mp < 10 then mp + 3 else mp - 9
  (if m ≤ 2 then y + 1 else y, m, d)

def digitVal (c : Char) : Nat := c.toNat - 48

/-- Timezone suffix of an ISO-8601 timestamp string: absent (naive) or an
explicit offset in minutes. -/
inductive TzSuffix
  | naive
  | offset (minutes : Int)

def parseTz : List Char → Option TzSuffix
  | [] => some .naive
  | ['Z'] => some (.offset 0)
  | [sg, o1, o2, ':', p1, p2] =>
    if (sg = '+' || sg = '-') && o1.isDigit && o2.isDigit && p1.isDigit && p2.isDigit then
      let m : Int := ((digitVal o1 * 10 + digitVal o2) * 60 + (digitVal p1 * 10 + digitVal p2) : Nat)
      some (.offset (if sg = '+' then m else -m))
    else none
  | _ => none

/-- Models the external `dateutil.parser.parse` capability on canonical
ISO-8601 strings `YYYY-MM-DDTHH:MM:SS` with optional `Z` or `±HH:MM` suffix
(whole seconds).  A string without a suffix parses to a timezone-naive
datetime; a suffixed string parses to an aware datetime denoting the
corresponding UTC instant.  Other inputs are rejected (`none` models the
parser raising). -/
def parseDT (s : String) : Option PyDatetime :=
  match s.data with
  | y1 :: y2 :: y3 :: y4 :: '-' :: m1 :: m2 :: '-' :: d1 :: d2 :: 'T' ::
    h1 :: h2 :: ':' :: n1 :: n2 :: ':' :: s1 :: s2 :: rest =>
    if (y1.isDigit && y2.isDigit && y3.isDigit && y4.isDigit && m1.isDigit && m2.isDigit &&
        d1.isDigit && d2.isDigit && h1.isDigit && h2.isDigit && n1.isDigit && n2.isDigit &&
        s1.isDigit && s2.isDigit) then
      let y := ((digitVal y1 * 10 + digitVal y2) * 10 + digitVal y3) * 10 + digitVal y4
      let mo := digitVal m1 * 10 + digitVal m2
      let d := digitVal d1 * 10 + digitVal d2
      let h := digitVal h1 * 10 + digitVal h2
      let mi := digitVal n1 * 10 + digitVal n2
      let se := digitVal s1 * 10 + digitVal s2
      if 1 ≤ mo && mo ≤ 12 && 1 ≤ d && d ≤ 31 && h ≤ 23 && mi ≤ 59 && se ≤ 59 then
        match parseTz rest with
        | some .naive => some ⟨false, civilSecs y mo d h mi se⟩
        | some (.offset off) => some ⟨true, civilSecs y mo d h mi se - off * 60⟩
        | none => none
      else none
    else none
  | _ => none

def pad2 (n : Nat) : String := if n < 10 then "0" ++ toString n else toString n

def pad4 (n : Nat) : String :=
  if n < 10 then "000" ++ toString n
  else if n < 100 then "00" ++ toString n
  else if n < 1000 then "0" ++ toString n
  else toString n

/-- Models `datetime.isoformat()` for whole-second datetimes: naive values
print with no suffix, UTC-aware values print with `+00:00`. -/
def isoformat (dt : PyDatetime) : String :=
  let days := Int.fdiv dt.val 86400
  let rem := (dt.val - days * 86400).toNat
  match civilFromDays days with
  | (y, m, d) =>
    pad4 y.toNat ++ "-" ++ pad2 m.toNat ++ "-" ++ pad2 d.toNat ++ "T" ++
    pad2 (rem / 3600) ++ ":" ++ pad2 (rem % 3600 / 60) ++ ":" ++ pad2 (rem % 60) ++
    (if dt.aware then "+00:00" else "")

/-- Python `<` on two datetimes: raises `TypeError` when one is naive and the
other aware, otherwise compares the denoted values. -/
def pyLtDT (a b : PyDatetime) : Except PyErr Bool :=
  if a.aware = b.aware then .ok (decide (a.val < b.val)) else .error .typeError

/-- Python `>` on two datetimes, with the same mixing rule as `pyLtDT`. -/
def pyGtDT (a b : PyDatetime) : Except PyErr Bool :=
  if a.aware = b.aware then .ok (decide (b.val < a.val)) else .error .typeError

/-- Embeds `DatabaseConnection._python_datetime_utc` applied to a timestamp
string: the string is parsed, then a naive result has UTC attached to it
(`replace(tzinfo=utc)`, keeping the clock reading) and an aware result is
converted to UTC (`astimezone`, keeping the instant).  Either way the result
is aware and denotes the same `val`. -/
def python_datetime_utc (s : String) : Except PyErr PyDatetime :=
  match parseDT s with
  | some dt => .ok ⟨true, dt.val⟩
  | none => .error .parserError

/-! ## Records (Python dicts) -/

/-- A record / datapoint: a Python dict with string keys and (for the
in-memory store and raw CSV rows) string values, modelled as an association
list in insertion order. -/
abbrev Datum := List (String × String)

/-- Dict lookup `d[k]` as an `Option`. -/
def dget (d : Datum) (k : String) : Option String :=
  (d.find? (fun p => p.1 == k)).map (·.2)

/-- Lookup keyed by an optional field name; in Python, subscripting a
string-keyed dict with `None` raises `KeyError`, so a `none` key never
resolves. -/
def dgetOpt (d : Datum) (k : Option String) : Option String :=
  match k with
  | none => none
  | some key => dget d key

/-- Membership test `k in d.keys()`. -/
def dhas (d : Datum) (k : String) : Bool := d.any (fun p => p.1 == k)

/-- Test from `write_data`: a configured field name that is absent from the
datum's keys.  An unconfigured (`None`) field name never counts as missing. -/
def fieldMissing (f : Option String) (d : Datum) : Bool :=
  match f with
  | none => false
  | some key => !(dhas d key)

/-! ## In-memory store -/

/-- State of `DatabaseConnectionMemory`: the two configured field names and
the backing list of datapoints. -/
structure DatabaseConnectionMemory where
  timestamp_field_name : Option String
  object_id_field_name : Option String
  data : List Datum
  deriving DecidableEq, Repr

/-- Loop body of `DatabaseConnectionMemory.write_data`: each datum is checked
for the configured timestamp field and then the configured object-id field
(raising `ValueError` if absent) and appended on success; a failure stops the
loop with the previously appended data kept. -/
def write_data_go (tsf oidf : Option String) (store : List Datum) :
    List Datum → List Datum × Option PyErr
  | [] => (store, none)
  | d :: rest =>
    if fieldMissing tsf d then (store, some .valueError)
    else if fieldMissing oidf d then (store, some .valueError)
    else write_data_go tsf oidf (store ++ [d]) rest

/-- Embeds `DatabaseConnectionMemory.write_data` on a list of datapoints,
returning the updated connection and the raised error, if any. -/
def write_data (db : DatabaseConnectionMemory) (data : List Datum) :
    DatabaseConnectionMemory × Option PyErr :=
  match write_data_go db.timestamp_field_name db.object_id_field_name db.data data with
  | (newData, err) => ({ db with data := newData }, err)

/-- First filter line of the `fetch_data` loop:
`start_time is not None and parse(datapoint[tsf]) < start_time_datetime`,
including the `KeyError` on a missing field and the parse/compare errors. -/
def start_skip (tsf : Option String) (st : Option PyDatetime) (d : Datum) : Except PyErr Bool :=
  match st with
  | none => .ok false
  | some sdt =>
    match dgetOpt d tsf with
    | none => .error .keyError
    | some ts =>
      match parseDT ts with
      | none => .error .parserError
      | some dt => pyLtDT dt sdt

/-- Second filter line of the `fetch_data` loop:
`end_time is not None and parse(datapoint[tsf]) > end_time_datetime`. -/
def end_skip (tsf : Option String) (et : Option PyDatetime) (d : Datum) : Except PyErr Bool :=
  match et with
  | none => .ok false
  | some edt =>
    match dgetOpt d tsf with
    | none => .error .keyError
    | some ts =>
      match parseDT ts with
      | none => .error .parserError
      | some dt => pyGtDT dt edt

/-- Third filter line of the `fetch_data` loop:
`object_ids is not None and datapoint[oidf] not in object_ids`. -/
def oid_skip (oidf : Option String) (ids : Option (List String)) (d : Datum) : Except PyErr Bool :=
  match ids with
  | none => .ok false
  | some l =>
    match dgetOpt d oidf with
    | none => .error .keyError
    | some oid => .ok (!(l.contains oid))

/-- Projection applied to each fetched datapoint:
`{key: value for key, value in datapoint.items() if fields is None or key in fields}`. -/
def project (fields : Option (List String)) (d : Datum) : Datum :=
  d.filter (fun kv =>
    match fields with
    | none => true
    | some fs => fs.contains kv.1)

/-- Loop of `DatabaseConnectionMemory.fetch_data` over the stored
datapoints, with the three `continue` conditions evaluated in source order. -/
def fetch_go (tsf oidf : Option String) (st et : Option PyDatetime)
    (ids : Option (List String)) (fields : Option (List String)) :
    List Datum → Except PyErr (List Datum)
  | [] => .ok []
  | d :: rest =>
    match start_skip tsf st d with
    | .error e => .error e
    | .ok true => fetch_go tsf oidf st et ids fields rest
    | .ok false =>
      match end_skip tsf et d with
      | .error e => .error e
      | .ok true => fetch_go tsf oidf st et ids fields rest
      | .ok false =>
        match oid_skip oidf ids d with
        | .error e => .error e
        | .ok true => fetch_go tsf oidf st et ids fields rest
        | .ok false =>
          match fetch_go tsf oidf st et ids fields rest with
          | .error e => .error e
          | .ok r => .ok (project fields d :: r)

/-- Bound parsing in `fetch_data`: `dateutil.parser.parse(bound)` when a
bound is supplied (note: with no UTC normalisation). -/
def parseBound : Option String → Except PyErr (Option PyDatetime)
  | none => .ok none
  | some s =>
    match parseDT s with
    | some dt => .ok (some dt)
    | none => .error .parserError

/-- Embeds `DatabaseConnectionMemory.fetch_data`: the two configuration
checks, bound parsing, then the filter loop. -/
def fetch_data (db : DatabaseConnectionMemory) (start_time end_time : Option String)
    (object_ids : Option (List String)) (fields : Option (List String)) :
    Except PyErr (List Datum) :=
  if (start_time.isSome || end_time.isSome) && db.timestamp_field_name.isNone then
    .error .valueError
  else if object_ids.isSome && db.object_id_field_name.isNone then
    .error .valueError
  else
    match parseBound start_time with
    | .error e => .error e
    | .ok st =>
      match parseBound end_time with
      | .error e => .error e
      | .ok et =>
        fetch_go db.timestamp_field_name db.object_id_field_name st et object_ids fields db.data

/-! ## DataQueue -/

/-- Sort key used by `DataQueue.__init__`: the raw value of the timestamp
field (a string).  The default only fires where Python would have raised. -/
def tsKey (tsf : Option String) (d : Datum) : String := (dgetOpt d tsf).getD ""

/-- Ordering on datapoints induced by the raw string value of the timestamp
field; this is the comparison Python's `list.sort(key=...)` performs. -/
abbrev tsRel (tsf : Option String) (a b : Datum) : Prop :=
  strLe (tsKey tsf a) (tsKey tsf b) = true

instance (tsf : Option String) : IsTrans Datum (tsRel tsf) :=
  ⟨fun _ _ _ h1 h2 => strLe_trans h1 h2⟩

instance (tsf : Option String) : IsTotal Datum (tsRel tsf) :=
  ⟨fun a b => strLe_total (tsKey tsf a) (tsKey tsf b)⟩

/-- State of a `DataQueue`. -/
structure DataQueue where
  data : List Datum
  timestamp_field_name : Option String
  num_datapoints : Nat
  next_data_pointer : Nat
  deriving DecidableEq, Repr

/-- Embeds `DataQueue.__init__`: `data.sort(key=lambda d: d[tsf])` computes
the key of every element (raising `KeyError` when the field is absent, or
when `tsf` is `None` and the list is nonempty) and stably sorts by the raw
string keys; the model uses insertion sort, which computes the same list as
any stable sort.  The cursor starts at zero and `num_datapoints` is the
length of the (sorted) list. -/
def DataQueue.init (data : List Datum) (tsf : Option String) : Except PyErr DataQueue :=
  if data.all (fun d => (dgetOpt d tsf).isSome) then
    let sorted := List.insertionSort (tsRel tsf) data
    .ok ⟨sorted, tsf, sorted.length, 0⟩
  else .error .keyError

/-- Embeds `DataQueue.__next__`: a `none` result models the `StopIteration`
end-of-sequence signal; before exhaustion the datapoint at the cursor is
returned and the cursor advances. -/
def DataQueue.next (q : DataQueue) : Option Datum × DataQueue :=
  if q.num_datapoints ≤ q.next_data_pointer then (none, q)
  else (q.data.get? q.next_data_pointer, { q with next_data_pointer := q.next_data_pointer + 1 })

/-- Result of the `(n+1)`-th `next()` call on a queue (calls are counted from
`n = 0`). -/
def DataQueue.nthCall (q : DataQueue) : Nat → Option Datum
  | 0 => q.next.1
  | n + 1 => q.next.2.nthCall n

/-- Embeds `DatabaseConnectionMemory.to_data_queue`: fetch with the same
arguments, then construct a `DataQueue` from the result. -/
def to_data_queue (db : DatabaseConnectionMemory) (start_time end_time : Option String)
    (object_ids : Option (List String)) (fields : Option (List String)) :
    Except PyErr DataQueue :=
  match fetch_data db start_time end_time object_ids fields with
  | .error e => .error e
  | .ok fetched => DataQueue.init fetched db.timestamp_field_name

/-! ## DataQueue with an explicit heap (for the aliasing claim)

Python's `data.sort(...)` mutates the caller's list object in place and
`self.data = data` stores the same reference.  To state this, lists are held
in a heap addressed by references. -/

/-- A heap of list objects, addressed by index. -/
abbrev Heap := List (List Datum)

/-- A `DataQueue` whose backing list is a heap reference rather than a
value. -/
structure HeapDataQueue where
  data_ref : Nat
  timestamp_field_name : Option String
  num_datapoints : Nat
  next_data_pointer : Nat
  deriving DecidableEq, Repr

/-- Embeds `DataQueue.__init__` with reference semantics: the list object at
`r` is sorted in place (the heap cell is overwritten with the sorted list)
and the constructed queue stores the same reference `r`. -/
def DataQueue.init_heap (h : Heap) (r : Nat) (tsf : Option String) :
    Except PyErr (Heap × HeapDataQueue) :=
  let data := (h.get? r).getD []
  if data.all (fun d => (dgetOpt d tsf).isSome) then
    let sorted := List.insertionSort (tsRel tsf) data
    .ok (h.set r sorted, ⟨r, tsf, sorted.length, 0⟩)
  else .error .keyError

/-! ## CSV-file store

Values read from or written to the file pass through the conversion helpers,
so a converted value is `None`, a string, or (for the `timestamp` field) a
datetime. -/

/-- A converted Python value of the CSV store. -/
inductive PyVal
  | null
  | str (s : String)
  | dt (d : PyDatetime)
  deriving DecidableEq, Repr

/-- A value dict, as produced by `_convert_from_string` over a row. -/
abbrev ValueDict := List (String × PyVal)

/-- Configuration of `DatabaseConnectionCSV` (the default, empty custom
converter dictionaries are assumed throughout, matching the constructor
defaults). -/
structure DatabaseConnectionCSV where
  time_series_database : Bool
  object_database : Bool
  field_names : List String
  deriving DecidableEq, Repr

/-- Content of the CSV file at the configured path: the header row and the
data rows; a row is keyed by the header names, as `csv.DictReader` and
`csv.DictWriter` present it. -/
structure CsvFile where
  header : List String
  rows : List Datum
  deriving DecidableEq, Repr

/-- State of the file system at the configured path. -/
inductive FileState
  | absent
  | present (f : CsvFile)
  deriving DecidableEq, Repr

/-- Field names expected by the constructor: `timestamp` when a time-series
database, then `object_id` when an object database, then the configured data
field names. -/
def expected_field_names (time_series_database object_database : Bool)
    (data_field_names : Option (List String)) : List String :=
  (if time_series_database then ["timestamp"] else []) ++
  (if object_database then ["object_id"] else []) ++
  data_field_names.getD []

/-- Reserved-name test of the constructor:
`data_field_names is not None and name in data_field_names`. -/
def reservedIn (data_field_names : Option (List String)) (name : String) : Bool :=
  match data_field_names with
  | some l => l.contains name
  | none => false

/-- Embeds `DatabaseConnectionCSV.__init__`: the flag and reserved-name
checks, then the header check against an existing file (the mismatch branch
raises — in the source the raise itself trips an `AttributeError` on the
misspelled `self.fieldnames` while formatting the message — leaving the file
untouched), or creation of the file with only the header row.  Returns the
resulting file state together with the constructed connection or the raised
error. -/
def csv_init (file : FileState) (time_series_database object_database : Bool)
    (data_field_names : Option (List String)) :
    FileState × Except PyErr DatabaseConnectionCSV :=
  if !time_series_database && !object_database then
    (file, .error .valueError)
  else if reservedIn data_field_names "timestamp" then
    (file, .error .valueError)
  else if reservedIn data_field_names "object_id" then
    (file, .error .valueError)
  else
    let fns := expected_field_names time_series_database object_database data_field_names
    match file with
    | .present f =>
      if f.header ≠ fns then (file, .error .headerMismatch)
      else (file, .ok ⟨time_series_database, object_database, fns⟩)
    | .absent =>
      (.present ⟨fns, []⟩, .ok ⟨time_series_database, object_database, fns⟩)

/-- Embeds `DatabaseConnectionCSV._convert_from_string` with the default
(empty) custom converter dictionary: `None`/empty text becomes `None`, the
`timestamp` field is parsed, anything else stays a string. -/
def convert_from_string (field_name : String) (s : Option String) : Except PyErr PyVal :=
  match s with
  | none => .ok .null
  | some v =>
    if v = "" then .ok .null
    else if field_name = "timestamp" then
      match parseDT v with
      | some dt => .ok (.dt dt)
      | none => .error .parserError
    else .ok (.str v)

/-- Embeds `DatabaseConnectionCSV._convert_to_string` with the default
(empty) custom converter dictionary: `None` becomes empty text, the
`timestamp` field is formatted with `isoformat()` (calling it on a plain
string raises `AttributeError`), anything else goes through `str()`, which is
the identity on strings.  A datetime in a non-timestamp field prints via
`str()`; its exact text (Python uses a space separator there) is irrelevant
to this development, which never stores datetimes outside `timestamp`. -/
def convert_to_string (field_name : String) (v : PyVal) : Except PyErr String :=
  match v with
  | .null => .ok ""
  | .str s => if field_name = "timestamp" then .error .attributeError else .ok s
  | .dt d => .ok (isoformat d)

/-- Value-dict construction shared by the CSV read paths:
`{f: self._convert_from_string(f, string_dict.get(f)) for f in field_names}`. -/
def row_to_value_dict (field_names : List String) (row : Datum) : Except PyErr ValueDict :=
  match field_names with
  | [] => .ok []
  | f :: rest =>
    match convert_from_string f (dget row f) with
    | .error e => .error e
    | .ok v =>
      match row_to_value_dict rest row with
      | .error e => .error e
      | .ok r => .ok ((f, v) :: r)

/-- Dict lookup `value_dict[k]`, raising `KeyError` when absent. -/
def vget (d : ValueDict) (k : String) : Except PyErr PyVal :=
  match d.find? (fun p => p.1 == k) with
  | some p => .ok p.2
  | none => .error .keyError

/-- Dict lookup `value_dict.get(k)` with `None` default. -/
def vgetD (d : ValueDict) (k : String) : PyVal :=
  match d.find? (fun p => p.1 == k) with
  | some p => p.2
  | none => .null

/-- Python `value < bound` where `bound` is a datetime: comparing `None` or a
string against a datetime raises `TypeError`. -/
def pyValLtDT (v : PyVal) (b : PyDatetime) : Except PyErr Bool :=
  match v with
  | .dt a => pyLtDT a b
  | _ => .error .typeError

/-- Python `value > bound` where `bound` is a datetime. -/
def pyValGtDT (v : PyVal) (b : PyDatetime) : Except PyErr Bool :=
  match v with
  | .dt a => pyGtDT a b
  | _ => .error .typeError

/-- Python `value in object_ids` for a list of id strings: only an equal
string is a member (`None` and datetimes are simply not found). -/
def pyValMem (v : PyVal) (ids : List String) : Bool :=
  match v with
  | .str s => ids.contains s
  | _ => false

/-- Python `dict.update`: existing keys are overwritten in place, new keys
are appended in order. -/
def dictUpdate (base upd : ValueDict) : ValueDict :=
  base.map (fun kv =>
    match upd.find? (fun p => p.1 == kv.1) with
    | some p => p
    | none => kv) ++
  upd.filter (fun p => !(base.any (fun kv => kv.1 == p.1)))

/-- String-dict construction of the CSV write path:
`{f: self._convert_to_string(f, value_dict.get(f)) for f in field_names}`. -/
def build_string_dict (field_names : List String) (value_dict : ValueDict) :
    Except PyErr Datum :=
  match field_names with
  | [] => .ok []
  | f :: rest =>
    match convert_to_string f (vgetD value_dict f) with
    | .error e => .error e
    | .ok s =>
      match build_string_dict rest value_dict with
      | .error e => .error e
      | .ok r => .ok ((f, s) :: r)

/-- Normalisation `_python_datetime_utc` applied to a write-path timestamp
argument, which may be a datetime, a parsable string, or `None` (on `None`
both the attribute access and the fallback `dateutil.parser.parse(None)`
raise). -/
def python_datetime_utc_val (v : PyVal) : Except PyErr PyDatetime :=
  match v with
  | .dt d => .ok ⟨true, d.val⟩
  | .str s =>
    match parseDT s with
    | some dt => .ok ⟨true, dt.val⟩
    | none => .error .parserError
  | .null => .error .typeError

/-- Embeds `DatabaseConnection.write_data_object_time_series` on the CSV
store (wrapper checks and timestamp normalisation, then
`_write_data_object_time_series`, which assembles the value dict, converts it
to strings and appends one row to the file).  No field-presence validation of
any kind is performed on this path. -/
def write_data_object_time_series (db : DatabaseConnectionCSV) (file : CsvFile)
    (timestamp object_id : PyVal) (data : ValueDict) : Except PyErr CsvFile :=
  if !(db.time_series_database && db.object_database) then .error .valueError
  else
    match python_datetime_utc_val timestamp with
    | .error e => .error e
    | .ok ts =>
      let value_dict := dictUpdate [("timestamp", .dt ts), ("object_id", object_id)] data
      match build_string_dict db.field_names value_dict with
      | .error e => .error e
      | .ok string_dict => .ok ⟨file.header, file.rows ++ [string_dict]⟩

/-- Start-time filter line of `_fetch_data_object_time_series`:
`start_time is not None and value_dict['timestamp'] < start_time`. -/
def csv_start_skip (st : Option PyDatetime) (vd : ValueDict) : Except PyErr Bool :=
  match st with
  | none => .ok false
  | some sdt =>
    match vget vd "timestamp" with
    | .error e => .error e
    | .ok v => pyValLtDT v sdt

/-- End-time filter line of `_fetch_data_object_time_series`. -/
def csv_end_skip (et : Option PyDatetime) (vd : ValueDict) : Except PyErr Bool :=
  match et with
  | none => .ok false
  | some edt =>
    match vget vd "timestamp" with
    | .error e => .error e
    | .ok v => pyValGtDT v edt

/-- Object-id filter line of `_fetch_data_object_time_series`:
`object_ids is not None and value_dict['object_id'] not in object_ids`. -/
def csv_oid_skip (ids : Option (List String)) (vd : ValueDict) : Except PyErr Bool :=
  match ids with
  | none => .ok false
  | some l =>
    match vget vd "object_id" with
    | .error e => .error e
    | .ok v => .ok (!(pyValMem v l))

/-- Embeds `DatabaseConnectionCSV._fetch_data_object_time_series` over the
file rows: each row is converted to a value dict and the three `continue`
conditions are applied in source order. -/
def fetch_rows (field_names : List String) (st et : Option PyDatetime)
    (ids : Option (List String)) : List Datum → Except PyErr (List ValueDict)
  | [] => .ok []
  | row :: rest =>
    match row_to_value_dict field_names row with
    | .error e => .error e
    | .ok vd =>
      match csv_start_skip st vd with
      | .error e => .error e
      | .ok true => fetch_rows field_names st et ids rest
      | .ok false =>
        match csv_end_skip et vd with
        | .error e => .error e
        | .ok true => fetch_rows field_names st et ids rest
        | .ok false =>
          match csv_oid_skip ids vd with
          | .error e => .error e
          | .ok true => fetch_rows field_names st et ids rest
          | .ok false =>
            match fetch_rows field_names st et ids rest with
            | .error e => .error e
            | .ok r => .ok (vd :: r)

/-- Embeds the row loop of `DatabaseConnectionCSV._delete_data_object_time_series`
exactly as written: a row survives (is copied to the replacement file) only
when `value_dict['timestamp'] > start_time` is false, then
`value_dict['timestamp'] < end_time` is false, then
`value_dict['object_id'] in object_ids` is false. -/
def delete_rows (field_names : List String) (st et : PyDatetime) (ids : List String) :
    List Datum → Except PyErr (List Datum)
  | [] => .ok []
  | row :: rest =>
    match row_to_value_dict field_names row with
    | .error e => .error e
    | .ok vd =>
      match vget vd "timestamp" with
      | .error e => .error e
      | .ok tv =>
        match pyValGtDT tv st with
        | .error e => .error e
        | .ok true => delete_rows field_names st et ids rest
        | .ok false =>
          match pyValLtDT tv et with
          | .error e => .error e
          | .ok true => delete_rows field_names st et ids rest
          | .ok false =>
            match vget vd "object_id" with
            | .error e => .error e
            | .ok ov =>
              if pyValMem ov ids then delete_rows field_names st et ids rest
              else
                match delete_rows field_names st et ids rest with
                | .error e => .error e
                | .ok r => .ok (row :: r)

/-- Embeds `DatabaseConnection.delete_data_object_time_series` on the CSV
store: the wrapper's mandatory-argument checks and bound normalisation, then
the rewrite of the whole file (fresh header, surviving rows) which atomically
replaces the original. -/
def delete_data_object_time_series (db : DatabaseConnectionCSV) (file : CsvFile)
    (start_time end_time : Option String) (object_ids : Option (List String)) :
    Except PyErr CsvFile :=
  if !(db.time_series_database && db.object_database) then .error .valueError
  else
    match start_time with
    | none => .error .valueError
    | some sts =>
      match end_time with
      | none => .error .valueError
      | some ets =>
        match object_ids with
        | none => .error .valueError
        | some ids =>
          match python_datetime_utc sts with
          | .error e => .error e
          | .ok st =>
            match python_datetime_utc ets with
            | .error e => .error e
            | .ok et =>
              match delete_rows db.field_names st et ids file.rows with
              | .error e => .error e
              | .ok kept => .ok ⟨db.field_names, kept⟩

/-- Modelled from the spec: the intended delete semantics, which the spec
states explicitly — "delete a record iff `startTime ≤ timestamp ≤ endTime`
AND `objectId ∈ objectIds`; all non-matching records are preserved" — stated
over file rows whose timestamp cell parses and whose object-id cell holds the
id.  This definition follows the spec's words and exists to be compared with
the source-derived `delete_rows`. -/
def spec_delete_rows (st et : PyDatetime) (ids : List String) (rows : List Datum) :
    List Datum :=
  rows.filter (fun row =>
    match (dget row "timestamp").bind parseDT, dget row "object_id" with
    | some t, some oid =>
      !(decide (st.val ≤ t.val) && decide (t.val ≤ et.val) && ids.contains oid)
    | _, _ => true)

/-! ## The common filtering predicate

Both stores' fetch loops keep a record exactly when every supplied filter
admits it; the predicate below is stated once, on the parsed timestamp value
and the object id, and is reused verbatim for both variants. -/

/-- First conjunct of the filtering predicate: no start time, or the record
timestamp is at or after it. -/
def boundLeftOk (st : Option PyDatetime) (t : Int) : Bool :=
  match st with
  | none => true
  | some s => decide (s.val ≤ t)

/-- Second conjunct: no end time, or the record timestamp is at or before it. -/
def boundRightOk (et : Option PyDatetime) (t : Int) : Bool :=
  match et with
  | none => true
  | some e => decide (t ≤ e.val)

/-- Third conjunct: no object-id filter, or the record's id is in the set. -/
def idsOk (ids : Option (List String)) (oid : String) : Bool :=
  match ids with
  | none => true
  | some l => l.contains oid

/-- Record-keeping predicate of `fetch`: include a record iff (no start time
or `start ≤ t`) and (no end time or `t ≤ end`) and (no object ids or
`oid ∈ ids`). -/
def keep_record (st et : Option PyDatetime) (ids : Option (List String))
    (t : Int) (oid : String) : Bool :=
  boundLeftOk st t && (boundRightOk et t && idsOk ids oid)

/-- The `keep_record` predicate read off an in-memory datapoint (defaults
fire only where the loop would instead have raised). -/
def memKeep (tf of : String) (st et : Option PyDatetime) (ids : Option (List String))
    (d : Datum) : Bool :=
  keep_record st et ids ((((dget d tf).bind parseDT).map PyDatetime.val).getD 0)
    ((dget d of).getD "")

/-- Total mirror of `convert_from_string` on one cell of a row (the parse
failure that would raise is defaulted to `null`; the value-dict lemmas only
use it where parsing succeeds). -/
def cellVal (row : Datum) (f : String) : PyVal :=
  match dget row f with
  | none => .null
  | some s =>
    if s = "" then .null
    else if f = "timestamp" then
      match parseDT s with
      | some t => .dt t
      | none => .null
    else .str s

/-- The `keep_record` predicate read off a CSV row. -/
def csvKeep (st et : Option PyDatetime) (ids : Option (List String)) (row : Datum) : Bool :=
  keep_record st et ids
    (match cellVal row "timestamp" with
     | .dt t => t.val
     | _ => 0)
    (match cellVal row "object_id" with
     | .str s => s
     | _ => "")

/-! ## Comparison lemmas -/

theorem decide_int_lt_eq (x y : Int) : decide (x < y) = !decide (y ≤ x) := by
  rcases lt_or_le x y with h | h
  · simp [h, not_le.mpr h]
  · simp [not_lt.mpr h, h]

/-! ## Memory fetch lemmas -/

theorem start_skip_ok {tf : String} {st : Option PyDatetime} {d : Datum} {ts : String}
    {dt : PyDatetime} {a : Bool}
    (hts : dget d tf = some ts) (hp : parseDT ts = some dt) (ha : dt.aware = a)
    (hst : ∀ s, st = some s → s.aware = a) :
    start_skip (some tf) st d = .ok (!(boundLeftOk st dt.val)) := by
  cases st with
  | none => rfl
  | some s =>
    simp [start_skip, dgetOpt, hts, hp, pyLtDT, ha, hst s rfl, decide_int_lt_eq, boundLeftOk]

theorem end_skip_ok {tf : String} {et : Option PyDatetime} {d : Datum} {ts : String}
    {dt : PyDatetime} {a : Bool}
    (hts : dget d tf = some ts) (hp : parseDT ts = some dt) (ha : dt.aware = a)
    (het : ∀ e, et = some e → e.aware = a) :
    end_skip (some tf) et d = .ok (!(boundRightOk et dt.val)) := by
  cases et with
  | none => rfl
  | some e =>
    simp [end_skip, dgetOpt, hts, hp, pyGtDT, ha, het e rfl, decide_int_lt_eq, boundRightOk]

theorem oid_skip_ok {of : String} {ids : Option (List String)} {d : Datum} {oid : String}
    (hoid : dget d of = some oid) :
    oid_skip (some of) ids d = .ok (!(idsOk ids oid)) := by
  cases ids with
  | none => rfl
  | some l => simp [oid_skip, dgetOpt, hoid, idsOk]

theorem memKeep_eq {tf of : String} {st et : Option PyDatetime} {ids : Option (List String)}
    {d : Datum} {ts : String} {dt : PyDatetime} {oid : String}
    (hts : dget d tf = some ts) (hp : parseDT ts = some dt) (hoid : dget d of = some oid) :
    memKeep tf of st et ids d = keep_record st et ids dt.val oid := by
  simp [memKeep, hts, hp, hoid]

theorem project_none (d : Datum) : project none d = d := by
  simp [project, List.filter_true]

theorem fetch_go_eq_filter (tf of : String) (st et : Option PyDatetime)
    (ids : Option (List String)) (a : Bool)
    (hst : ∀ s, st = some s → s.aware = a) (het : ∀ e, et = some e → e.aware = a) :
    ∀ data : List Datum,
      (∀ d ∈ data, ∃ ts dt oid, dget d tf = some ts ∧ parseDT ts = some dt ∧
        dt.aware = a ∧ dget d of = some oid) →
      fetch_go (some tf) (some of) st et ids none data
        = .ok (data.filter (memKeep tf of st et ids)) := by
  intro data
  induction data with
  | nil => intro _; rfl
  | cons d rest ih =>
    intro hall
    obtain ⟨ts, dt, oid, hts, hp, ha, hoid⟩ := hall d (List.mem_cons_self d rest)
    have hrest := ih (fun x hx => hall x (List.mem_cons_of_mem d hx))
    have hk := @memKeep_eq tf of st et ids d ts dt oid hts hp hoid
    rw [List.filter_cons, hk]
    simp only [fetch_go]
    rw [start_skip_ok hts hp ha hst, end_skip_ok hts hp ha het, oid_skip_ok hoid]
    simp only [keep_record]
    by_cases hc1 : boundLeftOk st dt.val = true
    case neg =>
      have hc1' : boundLeftOk st dt.val = false := by simpa using hc1
      simp [hc1', hrest]
    case pos =>
      by_cases hc2 : boundRightOk et dt.val = true
      case neg =>
        have hc2' : boundRightOk et dt.val = false := by simpa using hc2
        simp [hc1, hc2', hrest]
      case pos =>
        by_cases hc3 : idsOk ids oid = true
        case neg =>
          have hc3' : idsOk ids oid = false := by simpa using hc3
          simp [hc1, hc2, hc3', hrest]
        case pos =>
          simp [hc1, hc2, hc3, hrest, project_none]

theorem fetch_data_eq_filter (db : DatabaseConnectionMemory) (tf of : String)
    (sts ets : Option String) (st et : Option PyDatetime) (ids : Option (List String)) (a : Bool)
    (h1 : db.timestamp_field_name = some tf) (h2 : db.object_id_field_name = some of)
    (hsp : parseBound sts = .ok st) (hep : parseBound ets = .ok et)
    (hst : ∀ s, st = some s → s.aware = a) (het : ∀ e, et = some e → e.aware = a)
    (hall : ∀ d ∈ db.data, ∃ ts dt oid, dget d tf = some ts ∧ parseDT ts = some dt ∧
      dt.aware = a ∧ dget d of = some oid) :
    fetch_data db sts ets ids none = .ok (db.data.filter (memKeep tf of st et ids)) := by
  unfold fetch_data
  rw [h1, h2, hsp, hep]
  simp only [Option.isNone_some, Bool.and_false, Bool.false_eq_true, if_false]
  exact fetch_go_eq_filter tf of st et ids a hst het db.data hall

/-! ## Queue lemmas -/

theorem DataQueue.next_stop {q : DataQueue} (h : q.num_datapoints ≤ q.next_data_pointer) :
    q.next = (none, q) := by
  unfold next
  rw [if_pos h]

theorem DataQueue.next_go {q : DataQueue} (h : ¬ q.num_datapoints ≤ q.next_data_pointer) :
    q.next = (q.data.get? q.next_data_pointer,
      { q with next_data_pointer := q.next_data_pointer + 1 }) := by
  unfold next
  rw [if_neg h]

theorem DataQueue.nthCall_eq (n : Nat) : ∀ q : DataQueue,
    q.nthCall n = if q.next_data_pointer + n < q.num_datapoints
                  then q.data.get? (q.next_data_pointer + n) else none := by
  induction n with
  | zero =>
    intro q
    rw [show q.nthCall 0 = q.next.1 from rfl]
    by_cases h : q.num_datapoints ≤ q.next_data_pointer
    · rw [next_stop h, if_neg (by omega)]
    · rw [next_go h, if_pos (by omega)]
      simp
  | succ n ih =>
    intro q
    rw [show q.nthCall (n + 1) = q.next.2.nthCall n from rfl]
    by_cases h : q.num_datapoints ≤ q.next_data_pointer
    · rw [next_stop h]
      show q.nthCall n = _
      rw [ih q, if_neg (by omega), if_neg (by omega)]
    · rw [next_go h, ih]
      have h3 : q.next_data_pointer + 1 + n = q.next_data_pointer + (n + 1) := by omega
      simp [h3]

theorem DataQueue.init_ok {data : List Datum} {tsf : Option String} {q : DataQueue}
    (h : DataQueue.init data tsf = .ok q) :
    q.data = List.insertionSort (tsRel tsf) data ∧ q.timestamp_field_name = tsf ∧
    q.num_datapoints = q.data.length ∧ q.next_data_pointer = 0 ∧
    data.all (fun d => (dgetOpt d tsf).isSome) = true := by
  unfold DataQueue.init at h
  split at h
  next hall =>
    cases h
    exact ⟨rfl, rfl, rfl, rfl, hall⟩
  next => simp at h

theorem filter_orderedInsert_key_eq {tsf : Option String} {k : String} {a : Datum}
    (ha : (tsKey tsf a == k) = true) (m : List Datum) :
    (List.orderedInsert (tsRel tsf) a m).filter (fun d => tsKey tsf d == k)
      = a :: m.filter (fun d => tsKey tsf d == k) := by
  induction m with
  | nil => simp [List.orderedInsert, List.filter, ha]
  | cons b bs ih =>
    by_cases hr : tsRel tsf a b
    · simp [List.orderedInsert, if_pos hr, List.filter_cons, ha]
    · have hb : (tsKey tsf b == k) = false := by
        by_contra hbe
        simp only [Bool.not_eq_false] at hbe
        have h1 : tsKey tsf a = k := by simpa using ha
        have h2 : tsKey tsf b = k := by simpa using hbe
        exact hr (show strLe (tsKey tsf a) (tsKey tsf b) = true by
          rw [h1, h2]; exact strLe_refl k)
      simp [List.orderedInsert, if_neg hr, List.filter_cons, hb, ih]

theorem filter_orderedInsert_key_ne {tsf : Option String} {k : String} {a : Datum}
    (ha : (tsKey tsf a == k) = false) (m : List Datum) :
    (List.orderedInsert (tsRel tsf) a m).filter (fun d => tsKey tsf d == k)
      = m.filter (fun d => tsKey tsf d == k) := by
  induction m with
  | nil => simp [List.orderedInsert, List.filter, ha]
  | cons b bs ih =>
    by_cases hr : tsRel tsf a b
    · simp [List.orderedInsert, if_pos hr, List.filter_cons, ha]
    · simp [List.orderedInsert, if_neg hr, List.filter_cons, ih]

theorem insertionSort_filter_key (tsf : Option String) (k : String) (l : List Datum) :
    (List.insertionSort (tsRel tsf) l).filter (fun d => tsKey tsf d == k)
      = l.filter (fun d => tsKey tsf d == k) := by
  induction l with
  | nil => rfl
  | cons a l ih =>
    simp only [List.insertionSort]
    by_cases ha : (tsKey tsf a == k) = true
    · rw [filter_orderedInsert_key_eq ha, ih, List.filter_cons, if_pos ha]
    · have ha' : (tsKey tsf a == k) = false := by simpa using ha
      rw [filter_orderedInsert_key_ne ha', ih, List.filter_cons, if_neg (by simp [ha'])]

/-! ## Claim C3 -/

/-- Claim C3, counterexample: the queue sorts by the raw string value of the
timestamp field, not by the parsed instant.  The record with timestamp
`2024-01-02T00:00:00+09:00` denotes the earlier instant (1704121200 s, i.e.
2024-01-01T15:00:00Z) but sorts after `2024-01-01T20:00:00Z` (1704139200 s),
so the queue yields the records in strictly decreasing parsed-instant order,
refuting the claim that successive `next()` calls are non-decreasing in the
parsed value. -/
theorem c3_parsed_order_counterexample :
    DataQueue.init
      [[("timestamp", "2024-01-02T00:00:00+09:00"), ("object_id", "x")],
       [("timestamp", "2024-01-01T20:00:00Z"), ("object_id", "y")]] (some "timestamp")
      = .ok ⟨[[("timestamp", "2024-01-01T20:00:00Z"), ("object_id", "y")],
              [("timestamp", "2024-01-02T00:00:00+09:00"), ("object_id", "x")]],
             some "timestamp", 2, 0⟩ ∧
    (DataQueue.mk
      [[("timestamp", "2024-01-01T20:00:00Z"), ("object_id", "y")],
       [("timestamp", "2024-01-02T00:00:00+09:00"), ("object_id", "x")]]
      (some "timestamp") 2 0).nthCall 0
      = some [("timestamp", "2024-01-01T20:00:00Z"), ("object_id", "y")] ∧
    (DataQueue.mk
      [[("timestamp", "2024-01-01T20:00:00Z"), ("object_id", "y")],
       [("timestamp", "2024-01-02T00:00:00+09:00"), ("object_id", "x")]]
      (some "timestamp") 2 0).nthCall 1
      = some [("timestamp", "2024-01-02T00:00:00+09:00"), ("object_id", "x")] ∧
    parseDT "2024-01-01T20:00:00Z" = some ⟨true, 1704139200⟩ ∧
    parseDT "2024-01-02T00:00:00+09:00" = some ⟨true, 1704121200⟩ ∧
    (1704121200 : Int) < 1704139200 := by
  exact ⟨by decide, by decide, by decide, by decide, by decide, by decide⟩

/-- Claim C3, amended: a queue built from `data` yields, via successive
`next()` calls, exactly its sorted backing list, which is ordered
non-decreasingly by the RAW STRING value of the timestamp field (Python's
`list.sort` compares the key strings, not parsed instants), and is stable:
for every key string `k`, the records whose timestamp field equals `k`
appear in their original relative order.  This coincides with parsed-instant
order exactly when string order agrees with instant order (e.g. uniform
canonical UTC format), but not in general. -/
theorem c3_amended_sorted_by_string (data : List Datum) (tsf : String) (q : DataQueue)
    (hq : DataQueue.init data (some tsf) = .ok q) :
    (∀ n, q.nthCall n = q.data.get? n) ∧
    List.Pairwise (fun a b => strLe (tsKey (some tsf) a) (tsKey (some tsf) b) = true) q.data ∧
    (∀ k, q.data.filter (fun d => tsKey (some tsf) d == k)
        = data.filter (fun d => tsKey (some tsf) d == k)) := by
  obtain ⟨hdata, -, hnum, hptr, -⟩ := DataQueue.init_ok hq
  refine ⟨?_, ?_, ?_⟩
  · intro n
    rw [DataQueue.nthCall_eq, hptr]
    simp only [Nat.zero_add]
    by_cases h : n < q.num_datapoints
    · rw [if_pos h]
    · rw [if_neg h]
      symm
      rw [List.get?_eq_none]
      omega
  · rw [hdata]
    exact List.sorted_insertionSort (tsRel (some tsf)) data
  · intro k
    rw [hdata]
    exact insertionSort_filter_key (some tsf) k data

/-- Witness for the amended C3 at a concrete input. -/
theorem c3_amended_sorted_by_string_witness :
    List.Pairwise (fun a b => strLe (tsKey (some "timestamp") a) (tsKey (some "timestamp") b) = true)
      [[("timestamp", "2024-01-01T00:00:00Z")], [("timestamp", "2024-01-02T00:00:00Z")]] :=
  (c3_amended_sorted_by_string
    [[("timestamp", "2024-01-02T00:00:00Z")], [("timestamp", "2024-01-01T00:00:00Z")]]
    "timestamp"
    ⟨[[("timestamp", "2024-01-01T00:00:00Z")], [("timestamp", "2024-01-02T00:00:00Z")]],
     some "timestamp", 2, 0⟩ (by decide)).2.1

/-! ## Claim C4 -/

/-- Claim C4: on a queue built from a list of `N` records, each of the first
`N` calls to `next()` returns a record, and every call from the `N`-th on
returns the end-of-sequence signal; exhaustion is a steady state. -/
theorem c4_queue_exhaustion (data : List Datum) (tsf : Option String) (q : DataQueue) (N : Nat)
    (hq : DataQueue.init data tsf = .ok q) (hN : data.length = N) :
    (∀ n, n < N → (q.nthCall n).isSome = true) ∧ (∀ n, N ≤ n → q.nthCall n = none) := by
  obtain ⟨hdata, -, hnum, hptr, -⟩ := DataQueue.init_ok hq
  have hlen : q.data.length = N := by
    rw [hdata, (List.perm_insertionSort (tsRel tsf) data).length_eq, hN]
  constructor
  · intro n hn
    rw [DataQueue.nthCall_eq, hptr]
    simp only [Nat.zero_add]
    rw [if_pos (by omega)]
    rw [List.get?_eq_get (by omega)]
    rfl
  · intro n hn
    rw [DataQueue.nthCall_eq, hptr]
    simp only [Nat.zero_add]
    rw [if_neg (by omega)]

/-- Witness for C4 at a concrete two-record queue. -/
theorem c4_queue_exhaustion_witness :
    (∀ n, n < 2 →
      ((DataQueue.mk [[("t", "1")], [("t", "2")]] (some "t") 2 0).nthCall n).isSome = true) ∧
    (∀ n, 2 ≤ n →
      (DataQueue.mk [[("t", "1")], [("t", "2")]] (some "t") 2 0).nthCall n = none) :=
  c4_queue_exhaustion [[("t", "1")], [("t", "2")]] (some "t") _ 2 (by decide) (by decide)

/-! ## Claim C5 -/

/-- Claim C5, counterexample: on an in-memory store with no timestamp field,
`to_data_queue` with no filter arguments and an empty store does NOT fail —
it returns an (empty) queue, because `fetch_data` performs its configuration
checks only when a filter is supplied and sorting an empty list never
evaluates the key function. -/
theorem c5_to_data_queue_counterexample :
    to_data_queue ⟨none, none, []⟩ none none none none = .ok ⟨[], none, 0, 0⟩ := by decide

/-- Claim C5, amended: on an in-memory store with no timestamp field,
`to_data_queue` fails whenever `fetch_data` itself fails (a time filter is
supplied, or an object filter without a configured object-id field) and
whenever the fetched result is nonempty (the sort key `d[None]` raises
`KeyError`); it returns a queue — the empty one — exactly when the fetch
succeeds with an empty result. -/
theorem c5_amended_no_timestamp_field (db : DatabaseConnectionMemory)
    (start_time end_time : Option String) (object_ids : Option (List String))
    (fields : Option (List String)) (q : DataQueue)
    (h : db.timestamp_field_name = none) :
    to_data_queue db start_time end_time object_ids fields = .ok q ↔
      fetch_data db start_time end_time object_ids fields = .ok [] ∧ q = ⟨[], none, 0, 0⟩ := by
  unfold to_data_queue
  cases hf : fetch_data db start_time end_time object_ids fields with
  | error e => simp
  | ok fetched =>
    cases fetched with
    | nil =>
      rw [h]
      simp [DataQueue.init, eq_comm]
    | cons d rest =>
      rw [h]
      simp [DataQueue.init, dgetOpt]

/-- Witness for the amended C5 at a concrete input. -/
theorem c5_amended_no_timestamp_field_witness :
    to_data_queue ⟨none, some "object_id", []⟩ none none (some ["a"]) none
      = .ok ⟨[], none, 0, 0⟩ :=
  (c5_amended_no_timestamp_field ⟨none, some "object_id", []⟩ none none (some ["a"]) none
    ⟨[], none, 0, 0⟩ rfl).mpr ⟨by decide, rfl⟩

/-! ## Claim C10 -/

/-- Claim C10: constructing a `DataQueue` sorts the caller's list object in
place — the constructed queue's backing sequence is the very reference the
caller passed, and the heap cell at that reference now holds a reordering
(by timestamp key) of the caller's list. -/
theorem c10_init_sorts_in_place (heap : Heap) (r : Nat) (tsf : Option String) (l : List Datum)
    (hr : heap.get? r = some l) (hall : l.all (fun d => (dgetOpt d tsf).isSome) = true) :
    ∃ l', DataQueue.init_heap heap r tsf = .ok (heap.set r l', ⟨r, tsf, l'.length, 0⟩) ∧
      l'.Perm l ∧ List.Pairwise (tsRel tsf) l' := by
  refine ⟨List.insertionSort (tsRel tsf) l, ?_,
    List.perm_insertionSort (tsRel tsf) l, List.sorted_insertionSort (tsRel tsf) l⟩
  have hall' : ∀ x ∈ l, ¬ dgetOpt x tsf = none := by
    simpa [List.all_eq_true, Option.isSome_iff_ne_none] using hall
  unfold DataQueue.init_heap
  rw [List.get?_eq_getElem?] at hr
  simp [hr]
  exact hall'

/-- Witness for C10 at a concrete heap holding one unsorted list. -/
theorem c10_init_sorts_in_place_witness :
    ∃ l', DataQueue.init_heap [[[("t", "2")], [("t", "1")]]] 0 (some "t")
        = .ok ([[[("t", "2")], [("t", "1")]]].set 0 l', ⟨0, some "t", l'.length, 0⟩) ∧
      l'.Perm [[("t", "2")], [("t", "1")]] ∧ List.Pairwise (tsRel (some "t")) l' :=
  c10_init_sorts_in_place [[[("t", "2")], [("t", "1")]]] 0 (some "t")
    [[("t", "2")], [("t", "1")]] (by decide) (by decide)

/-! ## Claim C9 -/

/-- Claim C9, counterexample: the in-memory `fetch_data` parses its bounds
with bare `dateutil.parser.parse` and performs no UTC normalisation, so a
timezone-naive start bound compared against a timezone-aware stored
timestamp raises `TypeError` instead of being treated as UTC.  Had the naive
bound been treated as UTC, the record (instant 1704110400, i.e. 12:00 UTC)
would lie after the bound (instant 1704067200, i.e. 00:00 UTC) and be
returned. -/
theorem c9_naive_bound_counterexample :
    fetch_data ⟨some "timestamp", none, [[("timestamp", "2024-01-01T12:00:00+00:00")]]⟩
      (some "2024-01-01T00:00:00") none none none = .error .typeError ∧
    parseDT "2024-01-01T00:00:00" = some ⟨false, 1704067200⟩ ∧
    parseDT "2024-01-01T12:00:00+00:00" = some ⟨true, 1704110400⟩ ∧
    (1704067200 : Int) ≤ 1704110400 := by
  exact ⟨by decide, by decide, by decide, by decide⟩

/-- Claim C9, amended: the base-class conversion used by the file store's
wrappers does treat naive timestamps as UTC (it attaches UTC keeping the
denoted value), but the in-memory `fetch_data` does not normalise at all: it
compares parsed values directly, so only like-kinded timestamps compare
(naive with naive as wall clock read as UTC, aware with aware as instants),
and under uniform awareness the fetched set is exactly the records admitted
by the filter predicate on parsed values, independent of the offsets the
timestamps were written in. -/
theorem c9_amended_normalisation :
    (∀ (s : String) (v : Int), parseDT s = some ⟨false, v⟩ →
      python_datetime_utc s = .ok ⟨true, v⟩) ∧
    (∀ (db : DatabaseConnectionMemory) (tf of : String) (a : Bool)
       (sts ets : Option String) (st et : Option PyDatetime) (ids : Option (List String)),
      db.timestamp_field_name = some tf → db.object_id_field_name = some of →
      parseBound sts = .ok st → parseBound ets = .ok et →
      (∀ s, st = some s → s.aware = a) → (∀ e, et = some e → e.aware = a) →
      (∀ d ∈ db.data, ∃ ts dt oid, dget d tf = some ts ∧ parseDT ts = some dt ∧
        dt.aware = a ∧ dget d of = some oid) →
      fetch_data db sts ets ids none = .ok (db.data.filter (memKeep tf of st et ids))) := by
  constructor
  · intro s v hp
    unfold python_datetime_utc
    rw [hp]
  · intro db tf of a sts ets st et ids h1 h2 hsp hep hst het hall
    exact fetch_data_eq_filter db tf of sts ets st et ids a h1 h2 hsp hep hst het hall

/-- Witness for the amended C9 at concrete inputs. -/
theorem c9_amended_normalisation_witness :
    python_datetime_utc "2024-01-05T00:00:00" = .ok ⟨true, 1704412800⟩ ∧
    fetch_data ⟨some "timestamp", some "object_id",
        [[("timestamp", "2024-01-01T12:00:00+00:00"), ("object_id", "a")]]⟩
      (some "2024-01-01T00:00:00+00:00") none none none
      = .ok ([[("timestamp", "2024-01-01T12:00:00+00:00"), ("object_id", "a")]].filter
          (memKeep "timestamp" "object_id" (some ⟨true, 1704067200⟩) none none)) :=
  ⟨c9_amended_normalisation.1 "2024-01-05T00:00:00" 1704412800 (by decide),
   c9_amended_normalisation.2
     ⟨some "timestamp", some "object_id",
      [[("timestamp", "2024-01-01T12:00:00+00:00"), ("object_id", "a")]]⟩
     "timestamp" "object_id" true
     (some "2024-01-01T00:00:00+00:00") none (some ⟨true, 1704067200⟩) none none
     rfl rfl (by decide) rfl
     (fun s h => by cases h; rfl) (fun e h => by cases h)
     (by
       intro d hd
       rw [List.mem_singleton] at hd
       subst hd
       exact ⟨"2024-01-01T12:00:00+00:00", ⟨true, 1704110400⟩, "a",
         by decide, by decide, rfl, by decide⟩)⟩

/-! ## CSV value-dict lemmas -/

theorem cellVal_timestamp {row : Datum} {tss : String} {t : PyDatetime}
    (hg : dget row "timestamp" = some tss) (hne : tss ≠ "") (hp : parseDT tss = some t) :
    cellVal row "timestamp" = .dt t := by
  simp [cellVal, hg, hne, hp]

theorem cellVal_object_id {row : Datum} {oid : String}
    (hg : dget row "object_id" = some oid) (hne : oid ≠ "") :
    cellVal row "object_id" = .str oid := by
  simp [cellVal, hg, hne]

theorem row_to_value_dict_ok (row : Datum)
    (hts : ∀ s, dget row "timestamp" = some s → s ≠ "" → (parseDT s).isSome = true) :
    ∀ fns : List String, row_to_value_dict fns row = .ok (fns.map (fun f => (f, cellVal row f))) := by
  intro fns
  induction fns with
  | nil => rfl
  | cons f rest ih =>
    have hcf : convert_from_string f (dget row f) = .ok (cellVal row f) := by
      unfold convert_from_string cellVal
      cases hg : dget row f with
      | none => rfl
      | some s =>
        by_cases hse : s = ""
        · simp [hse]
        · by_cases hf : f = "timestamp"
          · subst hf
            have hsome := hts s hg hse
            cases hps : parseDT s with
            | none => rw [hps] at hsome; simp at hsome
            | some t => simp [hse, hps]
          · simp [hse, hf]
    simp only [row_to_value_dict, hcf, ih, List.map_cons]

theorem vget_map_cellVal (row : Datum) (k : String) :
    ∀ fns : List String, k ∈ fns →
      vget (fns.map (fun f => (f, cellVal row f))) k = .ok (cellVal row k) := by
  intro fns
  induction fns with
  | nil => intro h; exact absurd h (List.not_mem_nil k)
  | cons f rest ih =>
    intro hmem
    by_cases hf : f = k
    · subst hf
      simp [vget, List.find?]
    · have hmem' : k ∈ rest := by
        rcases List.mem_cons.mp hmem with h | h
        · exact absurd h.symm hf
        · exact h
      have hne : (f == k) = false := by simpa using hf
      simp only [List.map_cons, vget, List.find?, hne]
      exact ih hmem'

theorem csv_start_skip_ok {st : Option PyDatetime} {vd : ValueDict} {t : PyDatetime} {a : Bool}
    (hvt : vget vd "timestamp" = .ok (.dt t)) (ha : t.aware = a)
    (hst : ∀ s, st = some s → s.aware = a) :
    csv_start_skip st vd = .ok (!(boundLeftOk st t.val)) := by
  cases st with
  | none => rfl
  | some s =>
    simp [csv_start_skip, hvt, pyValLtDT, pyLtDT, ha, hst s rfl, decide_int_lt_eq, boundLeftOk]

theorem csv_end_skip_ok {et : Option PyDatetime} {vd : ValueDict} {t : PyDatetime} {a : Bool}
    (hvt : vget vd "timestamp" = .ok (.dt t)) (ha : t.aware = a)
    (het : ∀ e, et = some e → e.aware = a) :
    csv_end_skip et vd = .ok (!(boundRightOk et t.val)) := by
  cases et with
  | none => rfl
  | some e =>
    simp [csv_end_skip, hvt, pyValGtDT, pyGtDT, ha, het e rfl, decide_int_lt_eq, boundRightOk]

theorem csv_oid_skip_ok {ids : Option (List String)} {vd : ValueDict} {oid : String}
    (hvo : vget vd "object_id" = .ok (.str oid)) :
    csv_oid_skip ids vd = .ok (!(idsOk ids oid)) := by
  cases ids with
  | none => rfl
  | some l => simp [csv_oid_skip, hvo, pyValMem, idsOk]

theorem csvKeep_eq {st et : Option PyDatetime} {ids : Option (List String)} {row : Datum}
    {t : PyDatetime} {oid : String}
    (h1 : cellVal row "timestamp" = .dt t) (h2 : cellVal row "object_id" = .str oid) :
    csvKeep st et ids row = keep_record st et ids t.val oid := by
  simp [csvKeep, h1, h2]

theorem fetch_rows_eq_filter (fns : List String) (st et : Option PyDatetime)
    (ids : Option (List String)) (a : Bool)
    (hst : ∀ s, st = some s → s.aware = a) (het : ∀ e, et = some e → e.aware = a)
    (hf1 : "timestamp" ∈ fns) (hf2 : "object_id" ∈ fns) :
    ∀ rows : List Datum,
      (∀ row ∈ rows, ∃ tss t oid, dget row "timestamp" = some tss ∧ tss ≠ "" ∧
        parseDT tss = some t ∧ t.aware = a ∧ dget row "object_id" = some oid ∧ oid ≠ "") →
      fetch_rows fns st et ids rows
        = .ok ((rows.filter (csvKeep st et ids)).map
            (fun row => fns.map (fun f => (f, cellVal row f)))) := by
  intro rows
  induction rows with
  | nil => intro _; rfl
  | cons row rest ih =>
    intro hall
    obtain ⟨tss, t, oid, hg, hne, hp, ha, hgo, hone⟩ := hall row (List.mem_cons_self row rest)
    have hrest := ih (fun x hx => hall x (List.mem_cons_of_mem row hx))
    have hvd : row_to_value_dict fns row = .ok (fns.map (fun f => (f, cellVal row f))) :=
      row_to_value_dict_ok row
        (fun s hs hnese => by
          rw [hg] at hs
          cases hs
          rw [hp]
          rfl) fns
    have hct : cellVal row "timestamp" = .dt t := cellVal_timestamp hg hne hp
    have hco : cellVal row "object_id" = .str oid := cellVal_object_id hgo hone
    have hvt : vget (fns.map (fun f => (f, cellVal row f))) "timestamp" = .ok (.dt t) := by
      rw [vget_map_cellVal row "timestamp" fns hf1, hct]
    have hvo : vget (fns.map (fun f => (f, cellVal row f))) "object_id" = .ok (.str oid) := by
      rw [vget_map_cellVal row "object_id" fns hf2, hco]
    have hk : csvKeep st et ids row = keep_record st et ids t.val oid := csvKeep_eq hct hco
    rw [List.filter_cons, hk]
    simp only [fetch_rows]
    rw [hvd]
    simp only []
    rw [csv_start_skip_ok hvt ha hst, csv_end_skip_ok hvt ha het, csv_oid_skip_ok hvo]
    simp only [keep_record]
    by_cases hc1 : boundLeftOk st t.val = true
    case neg =>
      have hc1' : boundLeftOk st t.val = false := by simpa using hc1
      simp [hc1', hrest]
    case pos =>
      by_cases hc2 : boundRightOk et t.val = true
      case neg =>
        have hc2' : boundRightOk et t.val = false := by simpa using hc2
        simp [hc1, hc2', hrest]
      case pos =>
        by_cases hc3 : idsOk ids oid = true
        case neg =>
          have hc3' : idsOk ids oid = false := by simpa using hc3
          simp [hc1, hc2, hc3', hrest]
        case pos =>
          simp [hc1, hc2, hc3, hrest]

/-! ## Claim C2 -/

/-- Claim C2: on well-formed stored data (records carry the configured
fields, timestamps parse as timezone-aware instants), `fetch` returns, for
every combination of optional start, end and object-id filters, exactly the
stored records admitted by the predicate (no start or `start ≤ t`) AND (no
end or `t ≤ end`) AND (no ids or `oid ∈ ids`) — on the in-memory store and
on the CSV store alike, the two variants filtering by the very same
predicate `keep_record` on the parsed timestamp and the object id. -/
theorem c2_fetch_filter_correct (st et : Option PyDatetime) (ids : Option (List String))
    (hst : ∀ s, st = some s → s.aware = true) (het : ∀ e, et = some e → e.aware = true) :
    (∀ (db : DatabaseConnectionMemory) (tf of : String) (sts ets : Option String),
      db.timestamp_field_name = some tf → db.object_id_field_name = some of →
      parseBound sts = .ok st → parseBound ets = .ok et →
      (∀ d ∈ db.data, ∃ ts dt oid, dget d tf = some ts ∧ parseDT ts = some dt ∧
        dt.aware = true ∧ dget d of = some oid) →
      fetch_data db sts ets ids none = .ok (db.data.filter (memKeep tf of st et ids))) ∧
    (∀ (fns : List String) (rows : List Datum),
      "timestamp" ∈ fns → "object_id" ∈ fns →
      (∀ row ∈ rows, ∃ tss t oid, dget row "timestamp" = some tss ∧ tss ≠ "" ∧
        parseDT tss = some t ∧ t.aware = true ∧ dget row "object_id" = some oid ∧ oid ≠ "") →
      fetch_rows fns st et ids rows
        = .ok ((rows.filter (csvKeep st et ids)).map
            (fun row => fns.map (fun f => (f, cellVal row f))))) := by
  constructor
  · intro db tf of sts ets h1 h2 hsp hep hall
    exact fetch_data_eq_filter db tf of sts ets st et ids true h1 h2 hsp hep hst het hall
  · intro fns rows hf1 hf2 hall
    exact fetch_rows_eq_filter fns st et ids true hst het hf1 hf2 rows hall

/-- Witness for C2 at a concrete store, file and filter. -/
theorem c2_fetch_filter_correct_witness :
    fetch_data ⟨some "timestamp", some "object_id",
        [[("timestamp", "2024-01-01T00:00:00Z"), ("object_id", "a")],
         [("timestamp", "2024-01-02T00:00:00Z"), ("object_id", "b")]]⟩
      (some "2024-01-01T12:00:00Z") none (some ["b"]) none
      = .ok ([[("timestamp", "2024-01-01T00:00:00Z"), ("object_id", "a")],
              [("timestamp", "2024-01-02T00:00:00Z"), ("object_id", "b")]].filter
          (memKeep "timestamp" "object_id" (some ⟨true, 1704110400⟩) none (some ["b"]))) ∧
    fetch_rows ["timestamp", "object_id"] (some ⟨true, 1704110400⟩) none (some ["b"])
      [[("timestamp", "2024-01-01T00:00:00Z"), ("object_id", "a")],
       [("timestamp", "2024-01-02T00:00:00Z"), ("object_id", "b")]]
      = .ok (([[("timestamp", "2024-01-01T00:00:00Z"), ("object_id", "a")],
               [("timestamp", "2024-01-02T00:00:00Z"), ("object_id", "b")]].filter
          (csvKeep (some ⟨true, 1704110400⟩) none (some ["b"]))).map
            (fun row => ["timestamp", "object_id"].map (fun f => (f, cellVal row f)))) := by
  have hrows : ∀ row ∈ [[("timestamp", "2024-01-01T00:00:00Z"), ("object_id", "a")],
       [("timestamp", "2024-01-02T00:00:00Z"), ("object_id", "b")]],
      ∃ tss t oid, dget row "timestamp" = some tss ∧ tss ≠ "" ∧
        parseDT tss = some t ∧ t.aware = true ∧ dget row "object_id" = some oid ∧ oid ≠ "" := by
    intro row hrow
    rcases List.mem_cons.mp hrow with h | h
    · subst h
      exact ⟨"2024-01-01T00:00:00Z", ⟨true, 1704067200⟩, "a",
        by decide, by decide, by decide, rfl, by decide, by decide⟩
    · rw [List.mem_singleton] at h
      subst h
      exact ⟨"2024-01-02T00:00:00Z", ⟨true, 1704153600⟩, "b",
        by decide, by decide, by decide, rfl, by decide, by decide⟩
  have hmem : ∀ d ∈ [[("timestamp", "2024-01-01T00:00:00Z"), ("object_id", "a")],
       [("timestamp", "2024-01-02T00:00:00Z"), ("object_id", "b")]],
      ∃ ts dt oid, dget d "timestamp" = some ts ∧ parseDT ts = some dt ∧
        dt.aware = true ∧ dget d "object_id" = some oid := by
    intro d hd
    rcases List.mem_cons.mp hd with h | h
    · subst h
      exact ⟨"2024-01-01T00:00:00Z", ⟨true, 1704067200⟩, "a", by decide, by decide, rfl, by decide⟩
    · rw [List.mem_singleton] at h
      subst h
      exact ⟨"2024-01-02T00:00:00Z", ⟨true, 1704153600⟩, "b", by decide, by decide, rfl, by decide⟩
  have hc := c2_fetch_filter_correct (some ⟨true, 1704110400⟩) none (some ["b"])
    (fun s h => by cases h; rfl) (fun e h => by cases h)
  exact ⟨hc.1 ⟨some "timestamp", some "object_id", _⟩ "timestamp" "object_id"
      (some "2024-01-01T12:00:00Z") none rfl rfl (by decide) rfl hmem,
    hc.2 ["timestamp", "object_id"] _ (by decide) (by decide) hrows⟩

/-! ## Claim C1 -/

/-- Claim C1, evaluated at the spec's own concrete example: with records
`"a"` at 2024-01-01T00:00:00Z and `"b"` at 2024-01-02T00:00:00Z, deleting
with start 2024-01-01T00:00:00Z, end 2024-01-01T23:59:59Z and ids `{"a"}`
must remove only the first record and preserve the second — but the CSV
delete loop's comparisons are inverted (it skips a row whenever
`timestamp > start` or `timestamp < end` or `objectId ∈ ids`), so the code
deletes BOTH records: the rewritten file has no data rows at all, whereas
the spec's stated semantics (`spec_delete_rows`) keeps exactly record `"b"`. -/
theorem c1_delete_inverted_comparisons :
    delete_data_object_time_series ⟨true, true, ["timestamp", "object_id"]⟩
      ⟨["timestamp", "object_id"],
       [[("timestamp", "2024-01-01T00:00:00Z"), ("object_id", "a")],
        [("timestamp", "2024-01-02T00:00:00Z"), ("object_id", "b")]]⟩
      (some "2024-01-01T00:00:00Z") (some "2024-01-01T23:59:59Z") (some ["a"])
      = .ok ⟨["timestamp", "object_id"], []⟩ ∧
    spec_delete_rows ⟨true, 1704067200⟩ ⟨true, 1704153599⟩ ["a"]
      [[("timestamp", "2024-01-01T00:00:00Z"), ("object_id", "a")],
       [("timestamp", "2024-01-02T00:00:00Z"), ("object_id", "b")]]
      = [[("timestamp", "2024-01-02T00:00:00Z"), ("object_id", "b")]] ∧
    python_datetime_utc "2024-01-01T00:00:00Z" = .ok ⟨true, 1704067200⟩ ∧
    python_datetime_utc "2024-01-01T23:59:59Z" = .ok ⟨true, 1704153599⟩ := by
  exact ⟨by decide, by decide, by decide, by decide⟩

/-! ## Claim C6 -/

/-- Claim C6, counterexample (file store): the CSV write path performs no
field-presence validation at all.  Writing with `object_id = None` on a
store whose schema includes the object-id field does not fail — it appends a
row whose object-id cell is empty. -/
theorem c6_csv_write_no_validation_counterexample :
    write_data_object_time_series ⟨true, true, ["timestamp", "object_id"]⟩
      ⟨["timestamp", "object_id"], []⟩ (.str "2024-01-01T00:00:00Z") .null []
      = .ok ⟨["timestamp", "object_id"],
             [[("timestamp", "2024-01-01T00:00:00+00:00"), ("object_id", "")]]⟩ := by
  decide

/-- Claim C6, amended: only the in-memory store enforces the schema — a
record whose keys lack a configured timestamp or object-id field is rejected
(`ValueError`) and the store is unchanged.  The file store's write path
validates nothing: missing values are stored as empty cells (a `None`
timestamp fails only incidentally, inside the timestamp conversion, before
anything is written). -/
theorem c6_amended_memory_validation (db : DatabaseConnectionMemory) (d : Datum)
    (h : (fieldMissing db.timestamp_field_name d ||
          fieldMissing db.object_id_field_name d) = true) :
    write_data db [d] = (db, some .valueError) := by
  unfold write_data
  cases hts : fieldMissing db.timestamp_field_name d with
  | true => simp [write_data_go, hts]
  | false =>
    have hoi : fieldMissing db.object_id_field_name d = true := by
      rw [hts] at h
      simpa using h
    simp [write_data_go, hts, hoi]

/-- Witness for the amended C6 at a concrete store and record. -/
theorem c6_amended_memory_validation_witness :
    write_data ⟨some "timestamp", some "object_id", []⟩ [[("object_id", "a")]]
      = (⟨some "timestamp", some "object_id", []⟩, some .valueError) :=
  c6_amended_memory_validation ⟨some "timestamp", some "object_id", []⟩
    [("object_id", "a")] (by decide)

/-! ## Claim C7 -/

theorem write_data_go_stops_at_invalid (tsf oidf : Option String) :
    ∀ (k : Nat) (batch store : List Datum) (d0 : Datum) (tl : List Datum),
      batch.drop k = d0 :: tl →
      (∀ d ∈ batch.take k, (fieldMissing tsf d || fieldMissing oidf d) = false) →
      (fieldMissing tsf d0 || fieldMissing oidf d0) = true →
      write_data_go tsf oidf store batch = (store ++ batch.take k, some .valueError) := by
  intro k
  induction k with
  | zero =>
    intro batch store d0 tl hdrop hok hbad
    rw [List.drop_zero] at hdrop
    subst hdrop
    rw [List.take_zero, List.append_nil]
    cases hts : fieldMissing tsf d0 with
    | true => simp [write_data_go, hts]
    | false =>
      have hoi : fieldMissing oidf d0 = true := by
        rw [hts] at hbad
        simpa using hbad
      simp [write_data_go, hts, hoi]
  | succ k ih =>
    intro batch store d0 tl hdrop hok hbad
    cases batch with
    | nil => simp at hdrop
    | cons b bs =>
      have hbmem : b ∈ (b :: bs).take (k + 1) := by
        rw [List.take_succ_cons]
        exact List.mem_cons_self b _
      have hbok := hok b hbmem
      have hts : fieldMissing tsf b = false := by
        rcases Bool.or_eq_false_iff.mp hbok with ⟨h1, -⟩
        exact h1
      have hoi : fieldMissing oidf b = false := by
        rcases Bool.or_eq_false_iff.mp hbok with ⟨-, h2⟩
        exact h2
      rw [show write_data_go tsf oidf store (b :: bs)
          = write_data_go tsf oidf (store ++ [b]) bs by
        simp [write_data_go, hts, hoi]]
      rw [List.drop_succ_cons] at hdrop
      have hok' : ∀ d ∈ bs.take k, (fieldMissing tsf d || fieldMissing oidf d) = false := by
        intro d hd
        exact hok d (by rw [List.take_succ_cons]; exact List.mem_cons_of_mem b hd)
      rw [ih bs (store ++ [b]) d0 tl hdrop hok' hbad]
      rw [List.take_succ_cons]
      simp

/-- Claim C7: on a batch write whose record at position `k` is the first to
fail validation, the call raises, records `0 … k-1` of the batch remain
appended to the store, and no later record of the batch is stored. -/
theorem c7_batch_write_stops_at_invalid (db : DatabaseConnectionMemory) (batch : List Datum)
    (k : Nat) (d0 : Datum) (tl : List Datum)
    (hdrop : batch.drop k = d0 :: tl)
    (hok : ∀ d ∈ batch.take k,
      (fieldMissing db.timestamp_field_name d || fieldMissing db.object_id_field_name d) = false)
    (hbad : (fieldMissing db.timestamp_field_name d0 ||
             fieldMissing db.object_id_field_name d0) = true) :
    write_data db batch = ({ db with data := db.data ++ batch.take k }, some .valueError) := by
  unfold write_data
  rw [write_data_go_stops_at_invalid db.timestamp_field_name db.object_id_field_name
    k batch db.data d0 tl hdrop hok hbad]

/-- Witness for C7: a three-record batch whose middle record lacks the
timestamp field; the first record stays appended, the third is never
stored. -/
theorem c7_batch_write_stops_at_invalid_witness :
    write_data ⟨some "t", none, []⟩ [[("t", "1")], [("x", "9")], [("t", "3")]]
      = (⟨some "t", none, [[("t", "1")]]⟩, some .valueError) :=
  c7_batch_write_stops_at_invalid ⟨some "t", none, []⟩ [[("t", "1")], [("x", "9")], [("t", "3")]]
    1 [("x", "9")] [[("t", "3")]] (by decide) (by decide) (by decide)

/-! ## Claim C8 -/

/-- Claim C8: constructing a CSV store against a path where a file already
exists whose header row differs from the configured field-name sequence
fails (in the source the raise itself trips an `AttributeError` while
formatting the message, but construction fails either way — the spec names
this `SchemaMismatchError`) and leaves the file unchanged; constructing
against a path with no file creates the file containing only the header
line. -/
theorem c8_csv_init_header_check (f : CsvFile) (tsd od : Bool) (dfn : Option (List String))
    (hflags : (tsd || od) = true)
    (hts : reservedIn dfn "timestamp" = false)
    (hoi : reservedIn dfn "object_id" = false) :
    (f.header ≠ expected_field_names tsd od dfn →
      csv_init (.present f) tsd od dfn = (.present f, .error .headerMismatch)) ∧
    csv_init .absent tsd od dfn
      = (.present ⟨expected_field_names tsd od dfn, []⟩,
         .ok ⟨tsd, od, expected_field_names tsd od dfn⟩) := by
  have hflag' : (!tsd && !od) = false := by
    cases tsd <;> cases od <;> simp_all
  constructor
  · intro hne
    unfold csv_init
    rw [hflag', hts, hoi]
    simp only [Bool.false_eq_true, if_false]
    rw [if_pos hne]
  · unfold csv_init
    rw [hflag', hts, hoi]
    simp only [Bool.false_eq_true, if_false]

/-- Witness for C8 at a concrete mismatching file and a concrete absent
file. -/
theorem c8_csv_init_header_check_witness :
    (CsvFile.mk ["wrong"] []).header ≠ expected_field_names true true none ∧
    csv_init (.present ⟨["wrong"], []⟩) true true none
      = (.present ⟨["wrong"], []⟩, .error .headerMismatch) ∧
    csv_init .absent true true none
      = (.present ⟨expected_field_names true true none, []⟩,
         .ok ⟨true, true, expected_field_names true true none⟩) := by
  have hne : (CsvFile.mk ["wrong"] []).header ≠ expected_field_names true true none := by decide
  have hc := c8_csv_init_header_check ⟨["wrong"], []⟩ true true none rfl rfl rfl
  exact ⟨hne, hc.1 hne, hc.2⟩

end DBConn
